import Mathlib

/-!
Shallow embedding of the YouPower backend (Express/Mongoose) and frontend
(AngularJS) code relevant to the verified claims.

Conventions of the embedding:
* Mongoose documents become Lean structures; `Schema.Types.Mixed` rating maps
  (plain JS objects keyed by user-id strings) become association lists
  `List (String × _)` in insertion order, which is also JS iteration order.
* Optional / possibly-`undefined` fields become `Option _`; numbers that the
  code only ever stores as small non-negative integers (ratings 0/1, efforts
  1..5, dates as timestamps) become `Nat`.
* JS truthiness of such an optional number (`if (rating.effort)`) is
  "present and nonzero".
* Fallible model operations (callback-first-argument errors) become
  `Except String _`.
-/

namespace YouPower

/-! ### Embedded data model and operations -/

/-- JS truthiness of an optional numeric field: present and nonzero. -/
def truthyNum : Option Nat → Bool
  | some v => v != 0
  | none => false

/-- One entry of an Action's `ratings` map (written by `Action.rate`):
`{rating: ..., effort: ..., name: ..., date: ...}`. -/
structure ARating where
  rating : Option Nat
  effort : Option Nat
  name : Option String
  date : Nat
  deriving Repr, DecidableEq

/-- An Action's `ratings` map: user-id keyed JS object, in iteration order. -/
abbrev ARatings := List (String × ARating)

/-- The `Action` mongoose document (fields relevant to the claims). -/
structure Action where
  id : String
  name : String
  nameSe : Option String
  nameIt : Option String
  description : String
  descriptionSe : Option String
  descriptionIt : Option String
  impact : Nat
  effort : Nat
  ratings : ARatings
  authorId : String
  deriving Repr, DecidableEq

/-- The array built inside `includeMeanEffort`: five copies of the stored
author effort, then the effort of every rating whose effort field is truthy,
in map iteration order. -/
def effortEstimates (effort : Nat) (ratings : ARatings) : List Nat :=
  List.replicate 5 effort ++
    ratings.filterMap (fun p => if truthyNum p.2.effort then p.2.effort else none)

/-- Embedding of `includeMeanEffort` (actions model): the derived effort exposed on read is
`effortEstimates[parseInt(length / 2)]` (JS `parseInt` of a non-negative
half is floor division). -/
def includeMeanEffort (effort : Nat) (ratings : ARatings) : Nat :=
  (effortEstimates effort ratings).getD ((effortEstimates effort ratings).length / 2) 0

/-- The estimate array as the spec's words describe it: five copies of the
author effort, then the effort value of every rating that has one. -/
def specEffortArray (effort : Nat) (ratings : ARatings) : List Nat :=
  List.replicate 5 effort ++ ratings.filterMap (fun p => p.2.effort)

/-- A user's profile (fields relevant to the claims). -/
structure Profile where
  name : String
  language : Option String
  deriving Repr, DecidableEq

/-- The per-status action buckets on a user document; the backend queries use
`_.keys(...)` of each bucket, so each bucket is embedded as its list of
action-id keys. -/
structure UserActions where
  done : List String
  declined : List String
  na : List String
  pending : List String
  inProgress : List String
  deriving Repr, DecidableEq

/-- The `User` mongoose document (fields relevant to the claims). -/
structure User where
  id : String
  email : String
  profile : Profile
  actions : UserActions
  deriving Repr, DecidableEq

/-- One entry of an ActionComment's `ratings` map: `{value: ..., date: ...}`. -/
structure CRating where
  value : Option Nat
  date : Nat
  deriving Repr, DecidableEq

/-- An ActionComment's `ratings` map. -/
abbrev CRatings := List (String × CRating)

/-- The `ActionComment` mongoose document. -/
structure ActionComment where
  id : String
  actionId : String
  userId : String
  name : String
  email : String
  comment : String
  date : Nat
  hasPicture : Bool
  ratings : CRatings
  deriving Repr, DecidableEq

/-- The plain object handed back by ActionComment read/write operations after
`calcRating` ran on it: `ratings` is `Option _` because `calcRating` deletes
the property (`none` = absent). -/
structure ActionCommentView where
  id : String
  actionId : String
  userId : String
  name : String
  comment : String
  date : Nat
  numLikes : Nat
  userRating : Option Nat
  ratings : Option CRatings
  deriving Repr, DecidableEq

/-- Embedding of `calcRating` (actionComments model): counts entries with a truthy `value`
into `numLikes`, exposes the requesting user's own `value` as `userRating`
(when a userId was passed and the user has an entry), and deletes the raw
`ratings` map from the object. -/
def calcRating (c : ActionComment) (userId : Option String) : ActionCommentView :=
  { id := c.id, actionId := c.actionId, userId := c.userId, name := c.name,
    comment := c.comment, date := c.date,
    numLikes := (c.ratings.filter (fun p => truthyNum p.2.value)).length,
    userRating :=
      match userId with
      | some uid => (c.ratings.lookup uid).bind (·.value)
      | none => none,
    ratings := none }

/-- The plain object handed back by `Action.get` (exports.get in the actions
model): localized name/description, derived stats, the requesting user's own
rating, and — unlike the comment path — the raw `ratings` map, which
`exports.get` never deletes. -/
structure ActionView where
  id : String
  name : String
  description : String
  impact : Nat
  effort : Nat
  numLikes : Nat
  userRating : Option Nat
  ratings : Option ARatings
  numComments : Nat
  numUsers : Nat
  deriving Repr, DecidableEq

/-- Embedding of `includeRatingStats` (actions model): `numLikes` is the number of map
entries whose `rating` field is truthy. -/
def includeRatingStats (ratings : ARatings) : Nat :=
  (ratings.filter (fun p => truthyNum p.2.rating)).length

/-- Embedding of `Action.get` (exports.get in the actions model), after the
`findOne` succeeded; `numComments`/`numUsers` come from the two follow-up
queries and are passed in. The source assigns the localized name only when it
exists (the `||` fallback), blanks the localized fields, computes
`numLikes`/derived `effort`, and sets `userRating` from the user's map entry;
it never removes `action.ratings`. -/
def actionGet (a : Action) (user : User) (numComments numUsers : Nat) : ActionView :=
  let nm :=
    if user.profile.language = some "Italian" then a.nameIt.getD a.name
    else if user.profile.language = some "Swedish" then a.nameSe.getD a.name
    else a.name
  let desc :=
    if user.profile.language = some "Italian" then a.descriptionIt.getD a.description
    else if user.profile.language = some "Swedish" then a.descriptionSe.getD a.description
    else a.description
  { id := a.id, name := nm, description := desc, impact := a.impact,
    effort := includeMeanEffort a.effort a.ratings,
    numLikes := includeRatingStats a.ratings,
    userRating := (a.ratings.lookup user.id).bind (·.rating),
    ratings := some a.ratings,
    numComments := numComments, numUsers := numUsers }

/-- JS object property assignment `m[k] = v` on a rating map: overwrite the
existing entry for `k` in place (JS objects keep insertion order and at most
one entry per key), else append a new entry. -/
def objSet {V : Type} : List (String × V) → String → V → List (String × V)
  | [], k, v => [(k, v)]
  | p :: rest, k, v => if p.1 == k then (k, v) :: rest else p :: objSet rest k v

/-- The check `rating !== 1 && rating !== 0` applied to a number; `none` means the
argument was not a number, in which case `_.isNumber` already guards. -/
def ratingSane (r : Option Nat) : Bool :=
  match r with
  | some v => v == 0 || v == 1
  | none => true

/-- The check `effort < 1 || effort > 5`; JS comparisons with `undefined` are false, so
an absent effort passes. -/
def effortSane (e : Option Nat) : Bool :=
  match e with
  | some v => 1 ≤ v && v ≤ 5
  | none => true

/-- Embedding of `ActionComment.rate` (exports.rate in the actionComments model). The
`findOne` result is passed as `found`; `none` rating means a non-number. -/
def commentRate (user : Option User) (rating : Option Nat)
    (found : Option ActionComment) (now : Nat) : Except String ActionComment :=
  match user with
  | none => .error "Missing/invalid user"
  | some u =>
    if u.id = "" then .error "Missing/invalid user"
    else
      match rating with
      | none => .error "Missing/invalid rating"
      | some r =>
        match found with
        | none => .error "Action comment not found"
        | some c =>
          if r ≠ 0 ∧ r ≠ 1 then .error "invalid rating! should be 0 or 1"
          else .ok { c with ratings := objSet c.ratings u.id (CRating.mk (some r) now) }

/-- Embedding of `Action.rate` (exports.rate in the actions model). When the user already
has an entry the stored old rating/effort back-fill an absent argument. -/
def actionRate (user : Option User) (found : Option Action)
    (rating effort : Option Nat) (now : Nat) : Except String Action :=
  match user with
  | none => .error "Missing/invalid user"
  | some u =>
    if u.id = "" ∨ u.profile.name = "" then .error "Missing/invalid user"
    else
      match found with
      | none => .error "Action not found"
      | some a =>
        match a.ratings.lookup u.id with
        | some old =>
          if !ratingSane rating then .error "Invalid rating estimate"
          else if !effortSane effort then .error "Invalid effort estimate"
          else
            let entry := ARating.mk (rating.orElse (fun _ => old.rating))
              (effort.orElse (fun _ => old.effort)) (some u.profile.name) now
            .ok { a with ratings := objSet a.ratings u.id entry }
        | none =>
          if !ratingSane rating then .error "Missing/invalid rating"
          else if !effortSane effort then .error "Missing/invalid effort estimate"
          else
            let entry := ARating.mk rating effort (some u.profile.name) now
            .ok { a with ratings := objSet a.ratings u.id entry }

/-- The rating map resulting from a sequence of per-user rate events applied
to an initially empty map. -/
def ratingsAfter (evs : List (String × CRating)) : CRatings :=
  evs.foldl (fun m e => objSet m e.1 e.2) []

/-- The in-place swap `array[i] <-> array[j]` inside `shuffleArray`. -/
def listSwap {α : Type} (l : List α) (i j : Nat) : List α :=
  match l[i]?, l[j]? with
  | some a, some b => (l.set i b).set j a
  | _, _ => l

/-- The Fisher-Yates loop of `shuffleArray`:
`for (i = len-1; i > 0; i--) { j = floor(random()*(i+1)); swap i j }`.
The random draws are supplied by the oracle `rand`, reduced mod `i+1` exactly
as `Math.floor(Math.random()*(i+1))` is bounded by `i`. -/
def shuffleAux {α : Type} (rand : Nat → Nat) : Nat → List α → List α
  | 0, l => l
  | i + 1, l => shuffleAux rand i (listSwap l (i + 1) (rand (i + 1) % (i + 2)))

/-- Embedding of `shuffleArray` (actions model). -/
def shuffleArray {α : Type} (l : List α) (rand : Nat → Nat) : List α :=
  shuffleAux rand (l.length - 1) l

/-- The five `$nin` clauses of the `getSuggested` query: the action id is in
none of the user's status buckets. -/
def notInBuckets (ua : UserActions) (aid : String) : Bool :=
  !ua.done.contains aid && !ua.declined.contains aid && !ua.na.contains aid &&
    !ua.pending.contains aid && !ua.inProgress.contains aid

/-- The cap `if (actions.length > 5) actions = shuffleArray(actions).slice(0, 5)`. -/
def capShuffle (l : List Action) (rand : Nat → Nat) : List Action :=
  if l.length > 5 then (shuffleArray l rand).take 5 else l

/-- The per-result mutation of the Italian branch of `getSuggested`; the
query's `nameIt: {$exists: true}` clause guarantees the localized fields are
present, which the source assigns directly. -/
def italianize (a : Action) : Action :=
  { a with name := a.nameIt.getD a.name, description := a.descriptionIt.getD a.description,
           nameIt := none, descriptionIt := none }

/-- The per-result mutation of the Swedish branch of `getSuggested`. -/
def swedishize (a : Action) : Action :=
  { a with name := a.nameSe.getD a.name, description := a.descriptionSe.getD a.description,
           nameSe := none, descriptionSe := none }

/-- Embedding of `Action.getSuggested` (exports.getSuggested), over an
embedded db of actions; the `.select(...)` projections are kept as whole
documents since they drop no field the claims mention. -/
def getSuggested (db : List Action) (u : User) (rand : Nat → Nat) : List Action :=
  if u.profile.language = some "Italian" then
    (capShuffle (db.filter (fun a => notInBuckets u.actions a.id && a.nameIt.isSome)) rand).map
      italianize
  else if u.profile.language = some "Swedish" then
    (capShuffle (db.filter (fun a => notInBuckets u.actions a.id && a.nameSe.isSome)) rand).map
      swedishize
  else
    capShuffle (db.filter (fun a => notInBuckets u.actions a.id)) rand

/-- Modelled from the spec: `achievements.updateAchievement` — the
`backend/common/achievements` module is not under src/. Per the spec, an
"Achievement" is "a monotonic progress counter on a user profile" and the
helper "updates a monotonic progress counter": it stores the value the
updater callback computes from the old counter value. -/
def updateAchievement (old : Nat) (f : Nat → Nat) : Nat := f old

/-- The updater the `PUT /community/join/:id` route passes to
`updateAchievement` for `communitiesJoined`:
`return Math.max(oldVal, communities.length)`. -/
def joinAchievementUpdate (old numCommunities : Nat) : Nat :=
  updateAchievement old (fun o => max o numCommunities)

/-- The path parameters of `POST /community/:communityId/comment`: only
`communityId` is declared by the route pattern; `req.params.actionId` does
not exist on this route and reads as `undefined`. -/
structure CommentRouteParams where
  communityId : Option String
  actionId : Option String
  deriving Repr, DecidableEq

/-- The JSON request body the handler uses as the comment object. -/
structure CommentRouteBody where
  comment : Option String
  communityId : Option String
  deriving Repr, DecidableEq

/-- The object the comment route handler passes to
`CommunityComment.create`. -/
structure CommentDoc where
  communityId : Option String
  actionId : Option String
  userId : Option String
  name : Option String
  email : Option String
  comment : Option String
  deriving Repr, DecidableEq

/-- The `POST /community/:communityId/comment` handler body: it assigns
`actionId := req.params.actionId`, `userId`, `name` and `email` onto
`req.body` and passes the result to `CommunityComment.create`; it never sets
`communityId` from the path. -/
def buildCommunityComment (params : CommentRouteParams) (body : CommentRouteBody)
    (u : User) : CommentDoc :=
  { communityId := body.communityId,
    actionId := params.actionId,
    userId := some u.id,
    name := some u.profile.name,
    email := some u.email,
    comment := body.comment }

/-- A stored community comment document. -/
structure CommunityCommentDoc where
  communityId : String
  userId : String
  name : String
  email : String
  comment : String
  date : Nat
  deriving Repr, DecidableEq

/-- Embedding of `CommunityComment.create`: copies `communityId`, `userId`, `name`,
`email`, `comment` and stamps the date; all five are `required: true` in the
schema, so mongoose rejects a document missing any of them. -/
def communityCommentCreate (doc : CommentDoc) (now : Nat) :
    Except String CommunityCommentDoc :=
  match doc.communityId, doc.userId, doc.name, doc.email, doc.comment with
  | some cid, some uid, some nm, some em, some cm => .ok ⟨cid, uid, nm, em, cm, now⟩
  | _, _, _, _, _ => .error "CommunityComment validation failed"

/-- express-validator's `isMongoId` check on a path parameter: exactly 24
hexadecimal characters. -/
def isMongoId (s : String) : Bool :=
  s.length == 24 &&
    s.toList.all (fun c =>
      c.isDigit || ('a' ≤ c && c ≤ 'f') || ('A' ≤ c && c ≤ 'F'))

/-- An HTTP response: status code and body. -/
structure Response where
  status : Nat
  body : String
  deriving Repr, DecidableEq

/-- Modelled from the spec: the `res.successRes` middleware is not under
src/. Per the spec — "Errors are returned as stringly-typed messages or
validation-error dumps with HTTP 500 ... via callback-first-argument
convention" — it sends 500 with the error message when the error argument is
set, else 200 with the payload. -/
def successRes (err : Option String) (payload : String) : Response :=
  match err with
  | some e => ⟨500, e⟩
  | none => ⟨200, payload⟩

/-- The message `'There have been validation errors: ' + util.inspect(err)`; the
`util.inspect` dump is passed in. -/
def validationMsg (dump : String) : String :=
  "There have been validation errors: " ++ dump

/-- Route `GET /community/:id`: on an invalid MongoId the handler itself sends 500
with the validation message; otherwise the `Community.getCommunityInfo`
callback result goes through `successRes`. -/
def communityGetRoute (id : String) (dump : String)
    (delegate : Except String String) : Response :=
  if !isMongoId id then ⟨500, validationMsg dump⟩
  else
    match delegate with
    | .error e => successRes (some e) ""
    | .ok d => successRes none d

/-- Route `POST /community/communityPicture/:communityId`: on an invalid MongoId
this route hands the validation message to `successRes` as the error
argument (rather than calling `res.status(500).send` itself). -/
def communityPictureRoute (id : String) (dump : String)
    (upload : Except String String) : Response :=
  if !isMongoId id then successRes (some (validationMsg dump)) ""
  else
    match upload with
    | .error e => successRes (some e) ""
    | .ok d => successRes none d

/-- An embedded cooperative action sub-document (mongoose adds `_id`). -/
structure CoopAction where
  id : String
  name : Option String
  description : Option String
  date : Option Nat
  deriving Repr, DecidableEq

/-- The nested `meters` paths of the cooperative schema. -/
structure Meters where
  electricity : Option String
  heating : Option String
  deriving Repr, DecidableEq

/-- The `Cooperative` mongoose document. -/
structure Cooperative where
  id : String
  name : String
  yearOfConst : Nat
  area : Nat
  meters : Option Meters
  actions : List CoopAction
  deriving Repr, DecidableEq

/-- The caller-supplied object `Cooperative.create`/`updateAction` receive. -/
structure CoopInput where
  name : String
  yearOfConst : Nat
  area : Nat
  meters : Option Meters
  actions : List CoopAction
  deriving Repr, DecidableEq

/-- The `newAction` argument of `updateAction`. -/
structure CoopActionInput where
  name : Option String
  description : Option String
  date : Option Nat
  deriving Repr, DecidableEq

/-- Embedding of `Cooperative.create`: only `name`, `yearOfConst` and `area` of the input
reach `Cooperative.create`; mongoose fills the `actions` array default `[]`
and leaves `meters` unset. -/
def coopCreate (i : CoopInput) (newId : String) : Cooperative :=
  { id := newId, name := i.name, yearOfConst := i.yearOfConst, area := i.area,
    meters := none, actions := [] }

/-- The in-place mutation `updateAction` performs on the sub-document
returned by `actions.id(actionId)`: set `name`, `date`, `description`. -/
def setActionFields (x : CoopAction) (n : CoopActionInput) : CoopAction :=
  { x with name := n.name, date := n.date, description := n.description }

/-- Mongoose's `actions.id(actionId)` addresses the first sub-document with
the given `_id`; mutating it in place replaces it in the list. -/
def updateFirst : List CoopAction → String → CoopActionInput → List CoopAction
  | [], _, _ => []
  | x :: rest, aid, n =>
    if x.id == aid then setActionFields x n :: rest else x :: updateFirst rest aid n

/-- The removal `action.remove()` of the sub-document `actions.id(actionId)` found. -/
def removeFirst : List CoopAction → String → List CoopAction
  | [], _ => []
  | x :: rest, aid => if x.id == aid then rest else x :: removeFirst rest aid

/-- Embedding of `Cooperative.addAction`; `found` is the `findOne` result. The
`if (!cooperative.actions) actions = []` guard is the identity here because
an absent mongoose array already reads as the empty list. -/
def addAction (found : Option Cooperative) (a : CoopAction) :
    Except String Cooperative :=
  match found with
  | none => .error "Cooperative not found"
  | some c => .ok { c with actions := c.actions ++ [a] }

/-- Embedding of `Cooperative.updateAction`. -/
def updateAction (found : Option Cooperative) (aid : String) (n : CoopActionInput) :
    Except String Cooperative :=
  match found with
  | none => .error "Cooperative not found"
  | some c =>
    match c.actions.find? (fun x => x.id == aid) with
    | none => .error "Cooperative action not found"
    | some _ => .ok { c with actions := updateFirst c.actions aid n }

/-- Embedding of `Cooperative.deleteAction`. -/
def deleteAction (found : Option Cooperative) (aid : String) :
    Except String Cooperative :=
  match found with
  | none => .error "Cooperative not found"
  | some c =>
    match c.actions.find? (fun x => x.id == aid) with
    | none => .error "Cooperative action not found"
    | some _ => .ok { c with actions := removeFirst c.actions aid }

/-- The sub-documents strictly before the first one with the given sub-id. -/
def beforeSub (l : List CoopAction) (aid : String) : List CoopAction :=
  l.takeWhile (fun y => !(y.id == aid))

/-- The sub-documents strictly after the first one with the given sub-id. -/
def afterSub (l : List CoopAction) (aid : String) : List CoopAction :=
  (l.dropWhile (fun y => !(y.id == aid))).tail

/-- One action object in the frontend user's bucket lists. -/
structure UA where
  id : String
  latestDate : Nat
  deriving Repr, DecidableEq

/-- The `profile.toRehearse` flags the controller consults. -/
structure ToRehearse where
  done : Bool
  declined : Bool
  na : Bool
  deriving Repr, DecidableEq

/-- The slice of `$scope` state that `rehearseActions` reads and writes. The
`actios` field stands for the accidental global the mistyped
`actios = actions.slice(...)` assignment creates; nothing ever reads it. -/
structure FrontState where
  toRehearse : ToRehearse
  done : List UA
  declined : List UA
  na : List UA
  suggestedActions : List UA
  idx : Int
  lastActionUsed : Bool
  alertShown : Bool
  actios : Option (List UA)
  deriving Repr, DecidableEq

/-- The constant `$scope.preferredNumberOfActions = 3`. -/
def preferredNumberOfActions : Nat := 3

/-- The concatenation `rehearseActions` builds from the rehearse-enabled
buckets, in source order done, declined, na. -/
def rehearseCandidates (s : FrontState) : List UA :=
  (if s.toRehearse.done then s.done else []) ++
    (if s.toRehearse.declined then s.declined else []) ++
    (if s.toRehearse.na then s.na else [])

/-- Angular's `orderBy` with predicate `'latestDate'`: an ascending stable
sort on that field. -/
def orderByLatestDate (l : List UA) : List UA :=
  l.mergeSort (fun a b => decide (a.latestDate ≤ b.latestDate))

/-- Embedding of `$scope.rehearseActions`: with every enabled bucket empty it only shows
the no-rehearse alert; otherwise it sorts the candidates ascending by
`latestDate` and assigns the whole sorted list to `suggestedActions` — the
slice to `preferredNumberOfActions` lands in the misspelled `actios` and
never reaches `suggestedActions`. -/
def rehearseActions (s : FrontState) : FrontState :=
  let actions := rehearseCandidates s
  if actions.length = 0 then
    { s with alertShown := true }
  else
    let sorted := orderByLatestDate actions
    let slicedOff :=
      if sorted.length > preferredNumberOfActions then
        some (sorted.take preferredNumberOfActions)
      else s.actios
    { s with actios := slicedOff, idx := -1, lastActionUsed := true,
             suggestedActions := sorted }

/-! ### Supporting lemmas -/

lemma truthyNum_eq_pos (o : Option Nat) : truthyNum o = decide (0 < o.getD 0) := by
  cases o with
  | none => rfl
  | some v => by_cases h : v = 0 <;> simp [truthyNum, h, Nat.pos_iff_ne_zero]

lemma lookup_objSet_self {V : Type} (m : List (String × V)) (k : String) (v : V) :
    (objSet m k v).lookup k = some v := by
  induction m with
  | nil => simp [objSet]
  | cons p rest ih =>
    by_cases h : p.1 == k
    · simp [objSet, h, List.lookup]
    · have hne : p.1 ≠ k := by simpa using h
      have hkp : (k == p.1) = false := by simpa using (Ne.symm hne)
      simp [objSet, h, List.lookup, hkp, ih]

lemma lookup_objSet_ne {V : Type} (m : List (String × V)) (k k' : String) (v : V)
    (h : k' ≠ k) : (objSet m k v).lookup k' = m.lookup k' := by
  have hf : (k' == k) = false := by simpa using h
  induction m with
  | nil => simp [objSet, List.lookup, hf]
  | cons p rest ih =>
    by_cases hpk : p.1 == k
    · have hp : p.1 = k := by simpa using hpk
      have h1 : (k' == k) = false := by simpa using h
      have h2 : (k' == p.1) = false := by simp [hp, h]
      simp [objSet, hpk, List.lookup, h1, h2]
    · simp only [objSet, hpk, Bool.false_eq_true, not_false_eq_true, ite_false]
      rw [List.lookup, List.lookup]
      cases hk' : k' == p.1 <;> simp [ih]

lemma keys_objSet {V : Type} (m : List (String × V)) (k : String) (v : V) :
    (objSet m k v).map Prod.fst =
      if m.any (fun p => p.1 == k) then m.map Prod.fst
      else m.map Prod.fst ++ [k] := by
  induction m with
  | nil => simp [objSet]
  | cons p rest ih =>
    by_cases h : p.1 == k
    · have hp : p.1 = k := by simpa using h
      simp [objSet, h, hp]
    · have hfp : (p.1 == k) = false := by simpa using h
      by_cases h2 : rest.any (fun q => q.1 == k)
      · simp [objSet, hfp, ih, h2]
      · simp [objSet, hfp, ih, h2]

lemma keys_objSet_nodup {V : Type} (m : List (String × V)) (k : String) (v : V)
    (h : (m.map Prod.fst).Nodup) : ((objSet m k v).map Prod.fst).Nodup := by
  rw [keys_objSet]
  split
  · exact h
  · next hany =>
    have hk : k ∉ m.map Prod.fst := by
      intro hmem
      rcases List.mem_map.mp hmem with ⟨p, hp, hfst⟩
      exact hany (List.any_eq_true.mpr ⟨p, hp, by simp [hfst]⟩)
    simp [List.nodup_append, h, hk]

lemma keys_objSet_subset {V : Type} (m : List (String × V)) (k : String) (v : V) :
    (objSet m k v).map Prod.fst ⊆ m.map Prod.fst ++ [k] := by
  rw [keys_objSet]
  split
  · exact fun x hx => List.mem_append_left _ hx
  · exact fun x hx => hx

lemma countP_objSet_key {V : Type} (m : List (String × V)) (k : String) (v : V)
    (h : (m.map Prod.fst).Nodup) :
    (objSet m k v).countP (fun p => p.1 == k) = 1 := by
  induction m with
  | nil => simp [objSet, List.countP_cons]
  | cons p rest ih =>
    simp only [List.map_cons, List.nodup_cons] at h
    by_cases hpk : p.1 == k
    · have hp : p.1 = k := by simpa using hpk
      have hzero : rest.countP (fun q => q.1 == k) = 0 := by
        refine List.countP_eq_zero.mpr (fun q hq => ?_)
        simp only [beq_iff_eq]
        intro hqk
        exact h.1 (hp ▸ hqk ▸ List.mem_map.mpr ⟨q, hq, rfl⟩)
      simp [objSet, hpk, List.countP_cons, hzero]
    · simp [objSet, hpk, List.countP_cons, ih h.2]

lemma nodup_subset_length_le (l1 l2 : List String) (hn : l1.Nodup) (hs : l1 ⊆ l2) :
    l1.length ≤ l2.dedup.length := by
  have h1 : l1.toFinset.card = l1.length := List.toFinset_card_of_nodup hn
  have h2 : l1.toFinset ⊆ l2.toFinset := by
    intro x hx
    simp only [List.mem_toFinset] at hx ⊢
    exact hs hx
  calc l1.length = l1.toFinset.card := h1.symm
    _ ≤ l2.toFinset.card := Finset.card_le_card h2
    _ = l2.dedup.length := List.card_toFinset l2

lemma foldl_objSet_keys_nodup (evs : List (String × CRating)) (m : CRatings)
    (h : (m.map Prod.fst).Nodup) :
    ((evs.foldl (fun acc e => objSet acc e.1 e.2) m).map Prod.fst).Nodup := by
  induction evs generalizing m with
  | nil => exact h
  | cons e rest ih => exact ih _ (keys_objSet_nodup m e.1 e.2 h)

lemma foldl_objSet_keys_subset (evs : List (String × CRating)) (m : CRatings) :
    (evs.foldl (fun acc e => objSet acc e.1 e.2) m).map Prod.fst ⊆
      m.map Prod.fst ++ evs.map Prod.fst := by
  induction evs generalizing m with
  | nil => simp
  | cons e rest ih =>
    intro x hx
    have := ih (objSet m e.1 e.2) hx
    rcases List.mem_append.mp this with h1 | h2
    · rcases List.mem_append.mp (keys_objSet_subset m e.1 e.2 h1) with h3 | h4
      · exact List.mem_append_left _ h3
      · refine List.mem_append_right _ ?_
        simp only [List.mem_singleton] at h4
        simp [h4]
    · exact List.mem_append_right _ (by simp [h2])

lemma ratingsAfter_length_le (evs : List (String × CRating)) :
    (ratingsAfter evs).length ≤ (evs.map Prod.fst).dedup.length := by
  have hlen : (ratingsAfter evs).length = ((ratingsAfter evs).map Prod.fst).length :=
    (List.length_map _ _).symm
  rw [hlen]
  refine nodup_subset_length_le _ _ (foldl_objSet_keys_nodup evs [] (by simp)) ?_
  have := foldl_objSet_keys_subset evs []
  simpa [ratingsAfter] using this

lemma mem_listSwap {α : Type} (l : List α) (i j : Nat) (x : α)
    (h : x ∈ listSwap l i j) : x ∈ l := by
  unfold listSwap at h
  rcases hi : l[i]? with _ | a <;> rcases hj : l[j]? with _ | b <;>
    simp only [hi, hj] at h
  · exact h
  · exact h
  · exact h
  · rcases List.mem_or_eq_of_mem_set h with h1 | rfl
    · rcases List.mem_or_eq_of_mem_set h1 with h2 | rfl
      · exact h2
      · rcases List.getElem?_eq_some.mp hj with ⟨hjlt, rfl⟩
        exact List.getElem_mem hjlt
    · rcases List.getElem?_eq_some.mp hi with ⟨hilt, rfl⟩
      exact List.getElem_mem hilt

lemma length_listSwap {α : Type} (l : List α) (i j : Nat) :
    (listSwap l i j).length = l.length := by
  unfold listSwap
  rcases hi : l[i]? with _ | a <;> rcases hj : l[j]? with _ | b <;> simp

lemma mem_shuffleAux {α : Type} (rand : Nat → Nat) (i : Nat) (l : List α) (x : α)
    (h : x ∈ shuffleAux rand i l) : x ∈ l := by
  induction i generalizing l with
  | zero => exact h
  | succ n ih => exact mem_listSwap _ _ _ _ (ih _ h)

lemma length_shuffleAux {α : Type} (rand : Nat → Nat) (i : Nat) (l : List α) :
    (shuffleAux rand i l).length = l.length := by
  induction i generalizing l with
  | zero => rfl
  | succ n ih => rw [shuffleAux, ih, length_listSwap]

lemma mem_capShuffle (l : List Action) (rand : Nat → Nat) (x : Action)
    (h : x ∈ capShuffle l rand) : x ∈ l := by
  unfold capShuffle at h
  split at h
  · exact mem_shuffleAux _ _ _ _ (List.mem_of_mem_take h)
  · exact h

lemma length_capShuffle (l : List Action) (rand : Nat → Nat) :
    (capShuffle l rand).length ≤ 5 := by
  unfold capShuffle
  split
  · exact le_trans (by rw [List.length_take]; exact min_le_left _ _) (le_refl 5)
  · omega

lemma find?_decomp (l : List CoopAction) (aid : String) (n : CoopActionInput)
    (x : CoopAction) (h : l.find? (fun y => y.id == aid) = some x) :
    l = beforeSub l aid ++ x :: afterSub l aid ∧
    x.id = aid ∧
    updateFirst l aid n = beforeSub l aid ++ setActionFields x n :: afterSub l aid ∧
    removeFirst l aid = beforeSub l aid ++ afterSub l aid := by
  induction l with
  | nil => simp [List.find?] at h
  | cons y rest ih =>
    by_cases hy : y.id == aid
    · simp only [List.find?, hy] at h
      injection h with h
      subst h
      refine ⟨?_, by simpa using hy, ?_, ?_⟩ <;>
        simp [beforeSub, afterSub, updateFirst, removeFirst, hy,
          List.takeWhile_cons, List.dropWhile_cons]
    · have hyf : (y.id == aid) = false := by simpa using hy
      simp only [List.find?, hyf] at h
      have hb : (beforeSub (y :: rest) aid) = y :: beforeSub rest aid := by
        simp [beforeSub, List.takeWhile_cons, hyf]
      have hafter : afterSub (y :: rest) aid = afterSub rest aid := by
        simp [afterSub, List.dropWhile_cons, hyf]
      rcases ih h with ⟨h1, h2, h3, h4⟩
      refine ⟨?_, h2, ?_, ?_⟩
      · rw [hb, hafter, List.cons_append, ← h1]
      · simp [updateFirst, hy, hb, hafter, h3]
      · simp [removeFirst, hy, hb, hafter, h4]

lemma effortEstimates_eq_spec (effort : Nat) (ratings : ARatings)
    (h : ∀ p ∈ ratings, ∀ e, p.2.effort = some e → 0 < e) :
    effortEstimates effort ratings = specEffortArray effort ratings := by
  unfold effortEstimates specEffortArray
  congr 1
  refine List.filterMap_congr (fun p hp => ?_)
  rcases he : p.2.effort with _ | e
  · simp [truthyNum, he]
  · have : 0 < e := h p hp e he
    simp [truthyNum, he, Nat.pos_iff_ne_zero.mp this]

/-! ### Claim theorems -/

/-- C3 counterexample: `Action.get` does not drop the raw rating map — at a
concrete action with one rating, the object it returns still carries
`ratings`, so the claim's "the raw rating map itself is absent from the
returned object" fails for actions read through `exports.get`. -/
theorem actionGet_keeps_ratings_counterexample :
    (actionGet
      { id := "a1", name := "N", nameSe := none, nameIt := none,
        description := "D", descriptionSe := none, descriptionIt := none,
        impact := 3, effort := 2,
        ratings := [("u1", ⟨some 1, some 4, some "A", 0⟩)], authorId := "auth" }
      { id := "u1", email := "u1@x", profile := ⟨"U", none⟩,
        actions := ⟨[], [], [], [], []⟩ }
      0 0).ratings ≠ none := by decide

/-- C3 (amended): on read, `numLikes` counts the entries with a positive
rating/like value and the requesting user's own map entry is exposed as
`userRating`, for both action comments (`calcRating`) and actions
(`exports.get`); the raw rating map is deleted from action-comment objects,
but `Action.get` returns the action with its raw rating map still present. -/
theorem rating_reduction_amended (c : ActionComment) (a : Action) (u : User)
    (nc nu : Nat) :
    (calcRating c (some u.id)).numLikes
        = (c.ratings.filter (fun p => 0 < p.2.value.getD 0)).length ∧
    (∀ e, c.ratings.lookup u.id = some e →
      (calcRating c (some u.id)).userRating = e.value) ∧
    (calcRating c (some u.id)).ratings = none ∧
    (actionGet a u nc nu).numLikes
        = (a.ratings.filter (fun p => 0 < p.2.rating.getD 0)).length ∧
    (∀ e, a.ratings.lookup u.id = some e →
      (actionGet a u nc nu).userRating = e.rating) ∧
    (actionGet a u nc nu).ratings = some a.ratings := by
  refine ⟨?_, ?_, rfl, ?_, ?_, rfl⟩
  · unfold calcRating
    simp only
    rw [List.filter_congr (fun p _ => truthyNum_eq_pos p.2.value)]
  · intro e he
    simp [calcRating, he]
  · unfold actionGet includeRatingStats
    simp only
    rw [List.filter_congr (fun p _ => truthyNum_eq_pos p.2.rating)]
  · intro e he
    simp [actionGet, he]

/-- Witness for C3's amended theorem at a concrete comment, action and user:
the user has rated both, one other rating is a dislike (value 0). -/
theorem rating_reduction_amended_witness :
    (calcRating
        { id := "c1", actionId := "a1", userId := "u2", name := "B", email := "b@x",
          comment := "hi", date := 0, hasPicture := false,
          ratings := [("u1", ⟨some 1, 0⟩), ("u2", ⟨some 0, 1⟩)] }
        (some "u1")).numLikes = 1 ∧
    (calcRating
        { id := "c1", actionId := "a1", userId := "u2", name := "B", email := "b@x",
          comment := "hi", date := 0, hasPicture := false,
          ratings := [("u1", ⟨some 1, 0⟩), ("u2", ⟨some 0, 1⟩)] }
        (some "u1")).userRating = some 1 ∧
    (actionGet
        { id := "a1", name := "N", nameSe := none, nameIt := none,
          description := "D", descriptionSe := none, descriptionIt := none,
          impact := 3, effort := 2,
          ratings := [("u1", ⟨some 1, some 4, some "A", 0⟩)], authorId := "auth" }
        { id := "u1", email := "u1@x", profile := ⟨"U", none⟩,
          actions := ⟨[], [], [], [], []⟩ }
        0 0).userRating = some 1 := by
  have h := rating_reduction_amended
    { id := "c1", actionId := "a1", userId := "u2", name := "B", email := "b@x",
      comment := "hi", date := 0, hasPicture := false,
      ratings := [("u1", ⟨some 1, 0⟩), ("u2", ⟨some 0, 1⟩)] }
    { id := "a1", name := "N", nameSe := none, nameIt := none,
      description := "D", descriptionSe := none, descriptionIt := none,
      impact := 3, effort := 2,
      ratings := [("u1", ⟨some 1, some 4, some "A", 0⟩)], authorId := "auth" }
    { id := "u1", email := "u1@x", profile := ⟨"U", none⟩,
      actions := ⟨[], [], [], [], []⟩ }
    0 0
  refine ⟨?_, ?_, ?_⟩
  · rw [h.1]; decide
  · rw [h.2.1 ⟨some 1, 0⟩ (by decide)]
  · rw [h.2.2.2.2.1 ⟨some 1, some 4, some "A", 0⟩ (by decide)]

/-- C4: a successful rate (action or action comment) stores the new rating in
the map under the rating user's id — with a single entry for that user, so a
re-rate overwrites and no history is kept — leaves every other user's entry
unchanged, and after any sequence of rate events from an empty map the number
of entries never exceeds the number of distinct users who have rated. -/
theorem rate_stores_by_user_id (c : ActionComment) (a : Action) (u : User)
    (r : Nat) (re ef : Option Nat) (now : Nat)
    (hc : (c.ratings.map Prod.fst).Nodup) (ha : (a.ratings.map Prod.fst).Nodup) :
    (∀ c', commentRate (some u) (some r) (some c) now = .ok c' →
      c'.ratings.lookup u.id = some (CRating.mk (some r) now) ∧
      c'.ratings.countP (fun p => p.1 == u.id) = 1 ∧
      (∀ k, k ≠ u.id → c'.ratings.lookup k = c.ratings.lookup k)) ∧
    (∀ a', actionRate (some u) (some a) re ef now = .ok a' →
      (∃ e, a'.ratings.lookup u.id = some e ∧ e.date = now ∧
        e.name = some u.profile.name) ∧
      a'.ratings.countP (fun p => p.1 == u.id) = 1 ∧
      (∀ k, k ≠ u.id → a'.ratings.lookup k = a.ratings.lookup k)) ∧
    (∀ evs : List (String × CRating),
      (ratingsAfter evs).length ≤ (evs.map Prod.fst).dedup.length) := by
  refine ⟨?_, ?_, ratingsAfter_length_le⟩
  · intro c' h
    by_cases hid : u.id = ""
    · simp [commentRate, hid] at h
    · by_cases hr : r ≠ 0 ∧ r ≠ 1
      · simp [commentRate, hid, hr] at h
      · simp only [commentRate, hid, if_false, hr, ite_false, Except.ok.injEq,
          if_neg, reduceCtorEq] at h
        subst h
        exact ⟨lookup_objSet_self _ _ _, countP_objSet_key _ _ _ hc,
          fun k hk => lookup_objSet_ne _ _ _ _ hk⟩
  · intro a' h
    by_cases hid : u.id = "" ∨ u.profile.name = ""
    · simp [actionRate, hid] at h
    · rcases hl : a.ratings.lookup u.id with _ | old
      · by_cases hrs : ratingSane re
        · by_cases hes : effortSane ef
          · simp only [actionRate, hid, ite_false, hl, hrs, hes, Bool.not_true,
              Bool.false_eq_true, if_false, if_neg, Except.ok.injEq,
              not_false_eq_true, reduceCtorEq] at h
            subst h
            exact ⟨⟨_, lookup_objSet_self _ _ _, rfl, rfl⟩,
              countP_objSet_key _ _ _ ha,
              fun k hk => lookup_objSet_ne _ _ _ _ hk⟩
          · simp [actionRate, hid, hl, hrs, hes] at h
        · simp [actionRate, hid, hl, hrs] at h
      · by_cases hrs : ratingSane re
        · by_cases hes : effortSane ef
          · simp only [actionRate, hid, ite_false, hl, hrs, hes, Bool.not_true,
              Bool.false_eq_true, if_false, if_neg, Except.ok.injEq,
              not_false_eq_true, reduceCtorEq] at h
            subst h
            exact ⟨⟨_, lookup_objSet_self _ _ _, rfl, rfl⟩,
              countP_objSet_key _ _ _ ha,
              fun k hk => lookup_objSet_ne _ _ _ _ hk⟩
          · simp [actionRate, hid, hl, hrs, hes] at h
        · simp [actionRate, hid, hl, hrs] at h

/-- Witness for C4 at concrete inputs: user `u1` likes a comment previously
rated only by `u9`, and re-rates an action it had already rated (overwrite);
two rate events by the same user leave a one-entry map. -/
theorem rate_stores_by_user_id_witness :
    ([("u9", CRating.mk (some 1) 3), ("u1", CRating.mk (some 1) 7)].lookup "u1"
        = some (CRating.mk (some 1) 7)) ∧
    ([("u1", ARating.mk (some 1) (some 4) (some "U") 7)].countP
        (fun p => p.1 == "u1") = 1) ∧
    (ratingsAfter [("x", CRating.mk (some 1) 0), ("x", CRating.mk (some 0) 1)]).length ≤
      (([("x", CRating.mk (some 1) 0), ("x", CRating.mk (some 0) 1)].map
        Prod.fst).dedup.length) := by
  have h := rate_stores_by_user_id
    { id := "c1", actionId := "a1", userId := "u2", name := "B", email := "b@x",
      comment := "hi", date := 0, hasPicture := false,
      ratings := [("u9", CRating.mk (some 1) 3)] }
    { id := "a1", name := "N", nameSe := none, nameIt := none,
      description := "D", descriptionSe := none, descriptionIt := none,
      impact := 3, effort := 2,
      ratings := [("u1", ARating.mk (some 0) (some 3) (some "U") 0)],
      authorId := "auth" }
    { id := "u1", email := "u1@x", profile := ⟨"U", none⟩,
      actions := ⟨[], [], [], [], []⟩ }
    1 (some 1) (some 4) 7 (by decide) (by decide)
  have hc' := h.1
    { id := "c1", actionId := "a1", userId := "u2", name := "B", email := "b@x",
      comment := "hi", date := 0, hasPicture := false,
      ratings := [("u9", CRating.mk (some 1) 3), ("u1", CRating.mk (some 1) 7)] }
    (by simp [commentRate, objSet])
  have ha' := h.2.1
    { id := "a1", name := "N", nameSe := none, nameIt := none,
      description := "D", descriptionSe := none, descriptionIt := none,
      impact := 3, effort := 2,
      ratings := [("u1", ARating.mk (some 1) (some 4) (some "U") 7)],
      authorId := "auth" }
    (by simp [actionRate, objSet, ratingSane, effortSane, List.lookup])
  exact ⟨hc'.1, ha'.2.1, h.2.2 _⟩

/-- C2: every action returned by `getSuggested` has its id in none of the
user's five status buckets; under an Italian or Swedish profile language it
is the localized rendering of a db action whose localized name exists; and
the (possibly shuffled) result holds at most 5 actions. -/
theorem getSuggested_excludes_buckets_and_caps (db : List Action) (u : User)
    (rand : Nat → Nat) :
    (∀ x ∈ getSuggested db u rand,
      notInBuckets u.actions x.id = true ∧
      (u.profile.language = some "Italian" →
        ∃ b ∈ db, b.nameIt.isSome ∧ x = italianize b) ∧
      (u.profile.language = some "Swedish" →
        ∃ b ∈ db, b.nameSe.isSome ∧ x = swedishize b)) ∧
    (getSuggested db u rand).length ≤ 5 := by
  by_cases hit : u.profile.language = some "Italian"
  · constructor
    · intro x hx
      unfold getSuggested at hx
      rw [if_pos hit, List.mem_map] at hx
      rcases hx with ⟨y, hy, rfl⟩
      have hmem := mem_capShuffle _ _ _ hy
      rw [List.mem_filter] at hmem
      have hpred := hmem.2
      rw [Bool.and_eq_true] at hpred
      refine ⟨hpred.1, fun _ => ⟨y, hmem.1, hpred.2, rfl⟩, fun hsw => ?_⟩
      rw [hit] at hsw
      simp at hsw
    · unfold getSuggested
      rw [if_pos hit, List.length_map]
      exact length_capShuffle _ _
  · by_cases hsw : u.profile.language = some "Swedish"
    · constructor
      · intro x hx
        unfold getSuggested at hx
        rw [if_neg hit, if_pos hsw, List.mem_map] at hx
        rcases hx with ⟨y, hy, rfl⟩
        have hmem := mem_capShuffle _ _ _ hy
        rw [List.mem_filter] at hmem
        have hpred := hmem.2
        rw [Bool.and_eq_true] at hpred
        exact ⟨hpred.1, fun hi => absurd hi hit, fun _ => ⟨y, hmem.1, hpred.2, rfl⟩⟩
      · unfold getSuggested
        rw [if_neg hit, if_pos hsw, List.length_map]
        exact length_capShuffle _ _
    · constructor
      · intro x hx
        unfold getSuggested at hx
        rw [if_neg hit, if_neg hsw] at hx
        have hmem := mem_capShuffle _ _ _ hx
        rw [List.mem_filter] at hmem
        exact ⟨hmem.2, fun hi => absurd hi hit, fun hs => absurd hs hsw⟩
      · unfold getSuggested
        rw [if_neg hit, if_neg hsw]
        exact length_capShuffle _ _

/-- Witness for C2: an Italian-language user with empty buckets, a one-action
db whose action carries an Italian name; the single suggestion is its
localized rendering, its id is outside all buckets, and at most 5 come back. -/
theorem getSuggested_excludes_buckets_and_caps_witness :
    (notInBuckets (UserActions.mk [] [] [] [] [])
      (italianize
        { id := "a1", name := "N", nameSe := none, nameIt := some "NI",
          description := "D", descriptionSe := none, descriptionIt := some "DI",
          impact := 3, effort := 2, ratings := [], authorId := "auth" }).id = true) ∧
    (getSuggested
      [{ id := "a1", name := "N", nameSe := none, nameIt := some "NI",
         description := "D", descriptionSe := none, descriptionIt := some "DI",
         impact := 3, effort := 2, ratings := [], authorId := "auth" }]
      { id := "u1", email := "u1@x", profile := ⟨"U", some "Italian"⟩,
        actions := ⟨[], [], [], [], []⟩ }
      (fun _ => 0)).length ≤ 5 := by
  have h := getSuggested_excludes_buckets_and_caps
    [{ id := "a1", name := "N", nameSe := none, nameIt := some "NI",
       description := "D", descriptionSe := none, descriptionIt := some "DI",
       impact := 3, effort := 2, ratings := [], authorId := "auth" }]
    { id := "u1", email := "u1@x", profile := ⟨"U", some "Italian"⟩,
      actions := ⟨[], [], [], [], []⟩ }
    (fun _ => 0)
  exact ⟨(h.1 _ (by decide)).1, h.2⟩

/-- C5: a successful join updates the `communitiesJoined` counter to
`max(old, number of the user's communities)`, so it never decreases — also
across any sequence of joins. -/
theorem communitiesJoined_monotonic (old n : Nat) (ns : List Nat) :
    joinAchievementUpdate old n = max old n ∧
    old ≤ joinAchievementUpdate old n ∧
    old ≤ ns.foldl joinAchievementUpdate old := by
  refine ⟨rfl, le_max_left _ _, ?_⟩
  induction ns generalizing old with
  | nil => exact le_refl _
  | cons m rest ih =>
    exact le_trans (le_max_left old m) (ih (max old m))

/-- C6 (code bug): at the failing input — `POST` to
`/community/555f0163688305b57c7cef6c/comment` with body `{comment: "hi"}` —
the document the handler builds has no `communityId` at all (the handler
copies the undefined `req.params.actionId` instead of the path's
`communityId`), so the stored comment is not traceable to the parent
community and creation fails schema validation. -/
theorem communityComment_ignores_path_id :
    (buildCommunityComment
      { communityId := some "555f0163688305b57c7cef6c", actionId := none }
      { comment := some "hi", communityId := none }
      { id := "u1", email := "u1@x", profile := ⟨"U", none⟩,
        actions := ⟨[], [], [], [], []⟩ }).communityId ≠
        some "555f0163688305b57c7cef6c" ∧
    communityCommentCreate
      (buildCommunityComment
        { communityId := some "555f0163688305b57c7cef6c", actionId := none }
        { comment := some "hi", communityId := none }
        { id := "u1", email := "u1@x", profile := ⟨"U", none⟩,
          actions := ⟨[], [], [], [], []⟩ }) 0 =
      .error "CommunityComment validation failed" := by
  exact ⟨by decide, rfl⟩

/-- C7: every modelled route that validates an id — including the
community-picture route, whose validation failure goes through `successRes`
— answers an invalid MongoId with HTTP 500 and the validation-error message;
and a domain error such as an out-of-range comment rating is reported as a
string in the error position of the model callback. -/
theorem invalid_id_500_and_callback_errors (id dump : String)
    (d1 d2 : Except String String) (c : ActionComment) (u : User) (r now : Nat)
    (h : isMongoId id = false) (hu : u.id ≠ "") (hr0 : r ≠ 0) (hr1 : r ≠ 1) :
    (communityGetRoute id dump d1).status = 500 ∧
    (communityGetRoute id dump d1).body = validationMsg dump ∧
    (communityPictureRoute id dump d2).status = 500 ∧
    (communityPictureRoute id dump d2).body = validationMsg dump ∧
    commentRate (some u) (some r) (some c) now =
      .error "invalid rating! should be 0 or 1" := by
  refine ⟨?_, ?_, ?_, ?_, ?_⟩
  · simp [communityGetRoute, h]
  · simp [communityGetRoute, h]
  · simp [communityPictureRoute, h, successRes]
  · simp [communityPictureRoute, h, successRes]
  · simp [commentRate, hu, hr0, hr1]

/-- Witness for C7: the 3-character id `"xyz"` is not a MongoId, and rating
value 2 is rejected through the callback error string. -/
theorem invalid_id_500_and_callback_errors_witness :
    (communityGetRoute "xyz" "d" (.ok "x")).status = 500 ∧
    (communityPictureRoute "xyz" "d" (.ok "x")).body = validationMsg "d" ∧
    commentRate
      (some { id := "u1", email := "u1@x", profile := ⟨"U", none⟩,
              actions := ⟨[], [], [], [], []⟩ })
      (some 2)
      (some { id := "c1", actionId := "a1", userId := "u2", name := "B",
              email := "b@x", comment := "hi", date := 0, hasPicture := false,
              ratings := [] })
      9 = .error "invalid rating! should be 0 or 1" := by
  have h := invalid_id_500_and_callback_errors "xyz" "d" (.ok "x") (.ok "x")
    { id := "c1", actionId := "a1", userId := "u2", name := "B",
      email := "b@x", comment := "hi", date := 0, hasPicture := false,
      ratings := [] }
    { id := "u1", email := "u1@x", profile := ⟨"U", none⟩,
      actions := ⟨[], [], [], [], []⟩ }
    2 9 (by decide) (by decide) (by decide) (by decide)
  exact ⟨h.1, h.2.2.2.1, h.2.2.2.2⟩

/-- C8: `addAction` appends the sub-document; `updateAction`/`deleteAction`
with an absent sub-id answer `'Cooperative action not found'` without a save
(no new cooperative state); with a present sub-id, `updateAction` replaces
exactly the name, date and description of the first sub-document carrying
that id and `deleteAction` removes exactly that sub-document, both keeping
every other sub-document in place. -/
theorem coop_subdoc_crud (c : Cooperative) (a : CoopAction) (aid : String)
    (n : CoopActionInput) :
    addAction (some c) a = .ok { c with actions := c.actions ++ [a] } ∧
    (c.actions.find? (fun x => x.id == aid) = none →
      updateAction (some c) aid n = .error "Cooperative action not found" ∧
      deleteAction (some c) aid = .error "Cooperative action not found") ∧
    (∀ x, c.actions.find? (fun y => y.id == aid) = some x →
      x.id = aid ∧
      c.actions = beforeSub c.actions aid ++ x :: afterSub c.actions aid ∧
      (∀ y ∈ beforeSub c.actions aid, y.id ≠ aid) ∧
      updateAction (some c) aid n =
        .ok { c with actions := beforeSub c.actions aid ++ setActionFields x n :: afterSub c.actions aid } ∧
      deleteAction (some c) aid =
        .ok { c with actions := beforeSub c.actions aid ++ afterSub c.actions aid }) := by
  refine ⟨rfl, ?_, ?_⟩
  · intro hnone
    constructor <;> simp [updateAction, deleteAction, hnone]
  · intro x hx
    rcases find?_decomp c.actions aid n x hx with ⟨h1, h2, h3, h4⟩
    refine ⟨h2, h1, ?_, ?_, ?_⟩
    · intro y hy
      have := List.mem_takeWhile_imp hy
      simpa using this
    · simp [updateAction, hx, h3]
    · simp [deleteAction, hx, h4]

/-- Witness for C8 at a two-action cooperative: an absent sub-id errors, the
present sub-id `a2` is removed exactly, and `addAction` appends. -/
theorem coop_subdoc_crud_witness :
    updateAction
      (some { id := "co1", name := "Coop", yearOfConst := 1980, area := 100,
              meters := none,
              actions := [⟨"a1", some "n1", some "d1", some 1⟩,
                          ⟨"a2", some "n2", some "d2", some 2⟩] })
      "zz" ⟨some "nn", some "dd", some 9⟩ = .error "Cooperative action not found" ∧
    deleteAction
      (some { id := "co1", name := "Coop", yearOfConst := 1980, area := 100,
              meters := none,
              actions := [⟨"a1", some "n1", some "d1", some 1⟩,
                          ⟨"a2", some "n2", some "d2", some 2⟩] })
      "a2" =
      .ok { id := "co1", name := "Coop", yearOfConst := 1980, area := 100,
            meters := none, actions := [⟨"a1", some "n1", some "d1", some 1⟩] } := by
  have h := coop_subdoc_crud
    { id := "co1", name := "Coop", yearOfConst := 1980, area := 100,
      meters := none,
      actions := [⟨"a1", some "n1", some "d1", some 1⟩,
                  ⟨"a2", some "n2", some "d2", some 2⟩] }
    ⟨"a9", none, none, none⟩ "zz" ⟨some "nn", some "dd", some 9⟩
  have h2 := coop_subdoc_crud
    { id := "co1", name := "Coop", yearOfConst := 1980, area := 100,
      meters := none,
      actions := [⟨"a1", some "n1", some "d1", some 1⟩,
                  ⟨"a2", some "n2", some "d2", some 2⟩] }
    ⟨"a9", none, none, none⟩ "a2" ⟨some "nn", some "dd", some 9⟩
  refine ⟨(h.2.1 (by decide)).1, ?_⟩
  have hdel := (h2.2.2 ⟨"a2", some "n2", some "d2", some 2⟩ (by decide)).2.2.2.2
  rw [hdel]
  rfl

/-- C9: `Cooperative.create` stores only the input's name, construction year
and area; a caller-supplied meters value or initial actions list is
discarded, so every new cooperative starts with no meters and an empty
actions list. -/
theorem coopCreate_discards_extras (i : CoopInput) (newId : String)
    (m : Option Meters) (acts : List CoopAction) :
    (coopCreate i newId).name = i.name ∧
    (coopCreate i newId).yearOfConst = i.yearOfConst ∧
    (coopCreate i newId).area = i.area ∧
    (coopCreate i newId).meters = none ∧
    (coopCreate i newId).actions = [] ∧
    coopCreate { i with meters := m, actions := acts } newId = coopCreate i newId :=
  ⟨rfl, rfl, rfl, rfl, rfl, rfl⟩

/-- C10: with all rehearse-enabled buckets empty, `rehearseActions` only
raises the alert and leaves `suggestedActions` unchanged; otherwise
`suggestedActions` becomes the full candidate concatenation sorted ascending
by `latestDate`, with no bound on its length — the slice to 3 never takes
effect on it. -/
theorem rehearseActions_unbounded (s : FrontState) :
    (rehearseCandidates s = [] →
      rehearseActions s = { s with alertShown := true }) ∧
    (rehearseCandidates s ≠ [] →
      (rehearseActions s).suggestedActions.Perm (rehearseCandidates s) ∧
      List.Pairwise (fun a b => a.latestDate ≤ b.latestDate)
        (rehearseActions s).suggestedActions ∧
      (rehearseActions s).suggestedActions.length = (rehearseCandidates s).length ∧
      (rehearseActions s).alertShown = s.alertShown) := by
  constructor
  · intro h
    unfold rehearseActions
    rw [h]
    rfl
  · intro h
    have hlen : ¬((rehearseCandidates s).length = 0) := by
      simpa [List.length_eq_zero] using h
    unfold rehearseActions
    rw [if_neg hlen]
    refine ⟨List.mergeSort_perm _ _, ?_, List.length_mergeSort _, rfl⟩
    have hs := @List.sorted_mergeSort UA
      (fun a b : UA => decide (a.latestDate ≤ b.latestDate))
      (fun a b c hab hbc => by
        simp only [decide_eq_true_eq] at hab hbc ⊢
        exact le_trans hab hbc)
      (fun a b => by
        simp only [Bool.or_eq_true, decide_eq_true_eq]
        exact Nat.le_total a.latestDate b.latestDate)
      (rehearseCandidates s)
    exact hs.imp (fun hab => by simpa using hab)

/-- Witness for C10: one enabled bucket with four actions — the sorted
suggestion list keeps all four entries (the slice to 3 has no effect), is a
permutation of the candidates, and the alert flag stays off. -/
theorem rehearseActions_unbounded_witness :
    (rehearseActions
      { toRehearse := ⟨true, false, false⟩,
        done := [⟨"a1", 4⟩, ⟨"a2", 1⟩, ⟨"a3", 3⟩, ⟨"a4", 2⟩],
        declined := [], na := [], suggestedActions := [], idx := 0,
        lastActionUsed := false, alertShown := false,
        actios := none }).suggestedActions.length =
      (rehearseCandidates
        { toRehearse := ⟨true, false, false⟩,
          done := [⟨"a1", 4⟩, ⟨"a2", 1⟩, ⟨"a3", 3⟩, ⟨"a4", 2⟩],
          declined := [], na := [], suggestedActions := [], idx := 0,
          lastActionUsed := false, alertShown := false,
          actios := none }).length ∧
    (rehearseCandidates
      { toRehearse := ⟨true, false, false⟩,
        done := [⟨"a1", 4⟩, ⟨"a2", 1⟩, ⟨"a3", 3⟩, ⟨"a4", 2⟩],
        declined := [], na := [], suggestedActions := [], idx := 0,
        lastActionUsed := false, alertShown := false,
        actios := none }).length = 4 := by
  have h := (rehearseActions_unbounded
    { toRehearse := ⟨true, false, false⟩,
      done := [⟨"a1", 4⟩, ⟨"a2", 1⟩, ⟨"a3", 3⟩, ⟨"a4", 2⟩],
      declined := [], na := [], suggestedActions := [], idx := 0,
      lastActionUsed := false, alertShown := false,
      actios := none }).2 (by decide)
  exact ⟨h.2.2.1, by decide⟩

/-- C1: the derived effort computed on read is the element at index
`floor(n/2)` of the array built from five copies of the stored author effort
followed by the effort value of every rating that has one (all stored efforts
being positive, as `Action.rate` enforces); with no user-submitted effort
ratings it equals the author's original effort. -/
theorem includeMeanEffort_median_spec (effort : Nat) (ratings : ARatings) :
    ((∀ p ∈ ratings, ∀ e, p.2.effort = some e → 0 < e) →
      includeMeanEffort effort ratings =
        (specEffortArray effort ratings).getD
          ((specEffortArray effort ratings).length / 2) 0) ∧
    ((∀ p ∈ ratings, p.2.effort = none) →
      includeMeanEffort effort ratings = effort) := by
  constructor
  · intro h
    unfold includeMeanEffort
    rw [effortEstimates_eq_spec effort ratings h]
  · intro h
    unfold includeMeanEffort effortEstimates
    have hnil : ratings.filterMap
        (fun p => if truthyNum p.2.effort then p.2.effort else none) = [] := by
      refine List.filterMap_eq_nil_iff.mpr (fun p hp => ?_)
      simp [h p hp, truthyNum]
    rw [hnil, List.append_nil]
    simp [List.replicate_succ]

/-- Witness for C1 at a concrete action: author effort 2, two ratings with
efforts 4 and 5 (array `[2,2,2,2,2,4,5]`, median index 3, value 2); and with
no effort ratings the derived effort stays the author's value. -/
theorem includeMeanEffort_median_spec_witness :
    includeMeanEffort 2
      [("u1", ⟨some 1, some 4, some "A", 0⟩), ("u2", ⟨some 0, some 5, some "B", 1⟩)] =
      (specEffortArray 2
        [("u1", ⟨some 1, some 4, some "A", 0⟩), ("u2", ⟨some 0, some 5, some "B", 1⟩)]).getD
        ((specEffortArray 2
          [("u1", ⟨some 1, some 4, some "A", 0⟩), ("u2", ⟨some 0, some 5, some "B", 1⟩)]).length / 2) 0 ∧
    includeMeanEffort 3 [("u1", ⟨some 1, none, some "A", 0⟩)] = 3 :=
  ⟨(includeMeanEffort_median_spec 2 _).1 (by decide),
   (includeMeanEffort_median_spec 3 _).2 (by decide)⟩

end YouPower
